import Mathlib

/-!
Verification development for `work.py`, a forward-Euler simulation of a
coupled ODE system in the three quantities Order (O), Energy (E) and
Messiness (M).  The script allocates three zero-initialised arrays of
length `steps = int(T / dt)`, sets `O[0] = 0.2`, `E[0] = 0.5`, iterates

    for i in range(steps - 1):
        M[i] = G - O[i]
        dO = alpha * E[i] * f(M[i]) - delta * O[i]
        dE = r1 * g(M[i]) - r2 * E[i] * abs(f(M[i]))
        O[i+1] = O[i] + dO * dt
        E[i+1] = E[i] + dE * dt

and finally patches `M[-1] = G - O[-1]`.  Real arithmetic stands in for
floating point throughout.
-/

namespace Work

noncomputable section

/-- The scalar parameters set at the top of the script (`alpha`, `delta`,
`r1`, `r2`, `G`, `dt`) together with the two initial conditions
(`O[0]`, `E[0]`). -/
structure Params where
  alpha : ℝ
  delta : ℝ
  r1 : ℝ
  r2 : ℝ
  G : ℝ
  dt : ℝ
  O0 : ℝ
  E0 : ℝ

/-- The concrete parameter values of the script. -/
def params0 : Params :=
  { alpha := 2.0, delta := 0.5, r1 := 1.0, r2 := 1.2
    G := 1.0, dt := 0.01, O0 := 0.2, E0 := 0.5 }

/-- `T = 200`, the total simulated time. -/
def T : ℝ := 200

/-- `steps = int(T / dt)`: truncation of `T / dt` to an integer. -/
def steps : ℕ := Int.toNat ⌊T / params0.dt⌋

/-- `f(M) = M * exp(-M**2)` from the script. -/
def f (m : ℝ) : ℝ := m * Real.exp (-m ^ 2)

/-- `g(M) = 1.0 / (1.0 + M**2)` from the script. -/
def g (m : ℝ) : ℝ := 1.0 / (1.0 + m ^ 2)

/-- `dO = alpha * E[i] * f(M[i]) - delta * O[i]` from the loop body. -/
def dO (p : Params) (Mi Oi Ei : ℝ) : ℝ := p.alpha * Ei * f Mi - p.delta * Oi

/-- `dE = r1 * g(M[i]) - r2 * E[i] * abs(f(M[i]))` from the loop body. -/
def dE (p : Params) (Mi Ei : ℝ) : ℝ := p.r1 * g Mi - p.r2 * Ei * |f Mi|

/-- The three storage arrays `O`, `E`, `M`. -/
structure Traj where
  O : List ℝ
  E : List ℝ
  M : List ℝ

/-- The arrays after allocation (`np.zeros(steps)` three times) and the two
initial-condition assignments `O[0] = 0.2`, `E[0] = 0.5`. -/
def init (p : Params) (n : ℕ) : Traj where
  O := (List.replicate n (0 : ℝ)).set 0 p.O0
  E := (List.replicate n (0 : ℝ)).set 0 p.E0
  M := List.replicate n (0 : ℝ)

/-- One iteration of the simulation loop at index `i`: writes
`M[i] = G - O[i]`, then `O[i+1]` and `E[i+1]` from `dO` and `dE`. -/
def body (p : Params) (s : Traj) (i : ℕ) : Traj where
  O := s.O.set (i + 1)
    (s.O.getD i 0 + dO p (p.G - s.O.getD i 0) (s.O.getD i 0) (s.E.getD i 0) * p.dt)
  E := s.E.set (i + 1)
    (s.E.getD i 0 + dE p (p.G - s.O.getD i 0) (s.E.getD i 0) * p.dt)
  M := s.M.set i (p.G - s.O.getD i 0)

/-- The arrays after the first `k` iterations of the loop. -/
def loopUpTo (p : Params) (n k : ℕ) : Traj :=
  (List.range k).foldl (body p) (init p n)

/-- The arrays after the whole loop `for i in range(steps - 1)`. -/
def loop (p : Params) (n : ℕ) : Traj := loopUpTo p n (n - 1)

/-- The arrays at the end of the script, after the post-loop patch
`M[-1] = G - O[-1]`. -/
def final (p : Params) (n : ℕ) : Traj :=
  { loop p n with
    M := (loop p n).M.set (n - 1) (p.G - (loop p n).O.getD (n - 1) 0) }

/-- Modelled from the spec: the two-variable recurrence of claim C9,
`O[i+1] = O[i] + (alpha*E[i]*f(G-O[i]) - delta*O[i])*dt` and
`E[i+1] = E[i] + (r1*g(G-O[i]) - r2*E[i]*|f(G-O[i])|)*dt`, with no `M`
array involved. -/
def step (p : Params) (oe : ℝ × ℝ) : ℝ × ℝ :=
  (oe.1 + (p.alpha * oe.2 * f (p.G - oe.1) - p.delta * oe.1) * p.dt,
   oe.2 + (p.r1 * g (p.G - oe.1) - p.r2 * oe.2 * |f (p.G - oe.1)|) * p.dt)

/-- Modelled from the spec: the state `(O[i], E[i])` of the two-variable
recurrence of claim C9, started at the initial conditions. -/
def OE (p : Params) : ℕ → ℝ × ℝ
  | 0 => (p.O0, p.E0)
  | i + 1 => step p (OE p i)

/-- The script's parameters with `alpha` replaced by `0` (claim C7). -/
def p7 : Params := { params0 with alpha := 0 }

lemma OE_zero (p : Params) : OE p 0 = (p.O0, p.E0) := rfl

lemma OE_succ (p : Params) (i : ℕ) : OE p (i + 1) = step p (OE p i) := rfl

lemma loopUpTo_zero (p : Params) (n : ℕ) : loopUpTo p n 0 = init p n := rfl

lemma loopUpTo_succ (p : Params) (n k : ℕ) :
    loopUpTo p n (k + 1) = body p (loopUpTo p n k) k := by
  unfold loopUpTo
  rw [List.range_succ, List.foldl_append]
  rfl

lemma getD_set_self (l : List ℝ) (i : ℕ) (a : ℝ) (h : i < l.length) :
    (l.set i a).getD i 0 = a := by
  simp [List.getD_eq_getElem?_getD, List.getElem?_set_self h]

lemma getD_set_ne (l : List ℝ) (i j : ℕ) (a : ℝ) (h : i ≠ j) :
    (l.set i a).getD j 0 = l.getD j 0 := by
  simp [List.getD_eq_getElem?_getD, List.getElem?_set_ne h]

lemma getD_replicate (n i : ℕ) : (List.replicate n (0 : ℝ)).getD i 0 = 0 := by
  by_cases h : i < n
  · simp [List.getD_eq_getElem?_getD, List.getElem?_replicate, h]
  · simp [List.getD_eq_getElem?_getD, List.getElem?_replicate, h]

lemma body_O (p : Params) (s : Traj) (i : ℕ) :
    (body p s i).O = s.O.set (i + 1)
      (s.O.getD i 0 + dO p (p.G - s.O.getD i 0) (s.O.getD i 0) (s.E.getD i 0) * p.dt) := rfl

lemma body_E (p : Params) (s : Traj) (i : ℕ) :
    (body p s i).E = s.E.set (i + 1)
      (s.E.getD i 0 + dE p (p.G - s.O.getD i 0) (s.E.getD i 0) * p.dt) := rfl

lemma body_M (p : Params) (s : Traj) (i : ℕ) :
    (body p s i).M = s.M.set i (p.G - s.O.getD i 0) := rfl

/-- Invariant of the simulation loop: after `k` iterations the arrays have
their original length, `O` and `E` agree with the two-variable recurrence
`OE` up to index `k`, `M` agrees with `G - O` strictly below `k`, and `M`
is still zero from index `k` on. -/
lemma loopUpTo_inv (p : Params) (n : ℕ) (hn : 1 ≤ n) :
    ∀ k, k ≤ n - 1 →
      (loopUpTo p n k).O.length = n ∧
      (loopUpTo p n k).E.length = n ∧
      (loopUpTo p n k).M.length = n ∧
      (∀ i, i ≤ k → (loopUpTo p n k).O.getD i 0 = (OE p i).1) ∧
      (∀ i, i ≤ k → (loopUpTo p n k).E.getD i 0 = (OE p i).2) ∧
      (∀ i, i < k → (loopUpTo p n k).M.getD i 0 = p.G - (OE p i).1) ∧
      (∀ i, k ≤ i → (loopUpTo p n k).M.getD i 0 = 0) := by
  intro k
  induction k with
  | zero =>
    intro _
    have h0 : (0 : ℕ) < (List.replicate n (0 : ℝ)).length := by simpa using hn
    refine ⟨?_, ?_, ?_, ?_, ?_, ?_, ?_⟩
    · simp [loopUpTo_zero, init]
    · simp [loopUpTo_zero, init]
    · simp [loopUpTo_zero, init]
    · intro i hi
      have hi0 : i = 0 := Nat.le_zero.mp hi
      subst hi0
      rw [loopUpTo_zero]
      show ((List.replicate n (0 : ℝ)).set 0 p.O0).getD 0 0 = (OE p 0).1
      rw [getD_set_self _ _ _ h0, OE_zero]
    · intro i hi
      have hi0 : i = 0 := Nat.le_zero.mp hi
      subst hi0
      rw [loopUpTo_zero]
      show ((List.replicate n (0 : ℝ)).set 0 p.E0).getD 0 0 = (OE p 0).2
      rw [getD_set_self _ _ _ h0, OE_zero]
    · intro i hi
      exact absurd hi (Nat.not_lt_zero i)
    · intro i _
      rw [loopUpTo_zero]
      show (List.replicate n (0 : ℝ)).getD i 0 = 0
      exact getD_replicate n i
  | succ k ih =>
    intro hk
    have hk' : k ≤ n - 1 := Nat.le_of_succ_le hk
    obtain ⟨hOl, hEl, hMl, hO, hE, hM, hMz⟩ := ih hk'
    have hkn : k + 1 < n := by omega
    rw [loopUpTo_succ]
    refine ⟨?_, ?_, ?_, ?_, ?_, ?_, ?_⟩
    · rw [body_O, List.length_set, hOl]
    · rw [body_E, List.length_set, hEl]
    · rw [body_M, List.length_set, hMl]
    · intro i hi
      rw [body_O]
      rcases Nat.lt_or_ge i (k + 1) with h | h
      · rw [getD_set_ne _ _ _ _ (by omega : k + 1 ≠ i)]
        exact hO i (by omega)
      · have hieq : i = k + 1 := by omega
        subst hieq
        rw [getD_set_self _ _ _ (by rw [hOl]; exact hkn)]
        rw [hO k le_rfl, hE k le_rfl, OE_succ]
        simp [step, dO]
    · intro i hi
      rw [body_E]
      rcases Nat.lt_or_ge i (k + 1) with h | h
      · rw [getD_set_ne _ _ _ _ (by omega : k + 1 ≠ i)]
        exact hE i (by omega)
      · have hieq : i = k + 1 := by omega
        subst hieq
        rw [getD_set_self _ _ _ (by rw [hEl]; exact hkn)]
        rw [hO k le_rfl, hE k le_rfl, OE_succ]
        simp [step, dE]
    · intro i hi
      rw [body_M]
      rcases Nat.lt_or_ge i k with h | h
      · rw [getD_set_ne _ _ _ _ (by omega : k ≠ i)]
        exact hM i h
      · have hieq : i = k := by omega
        subst hieq
        rw [getD_set_self _ _ _ (by rw [hMl]; omega), hO i le_rfl]
    · intro i hi
      rw [body_M, getD_set_ne _ _ _ _ (by omega : k ≠ i)]
      exact hMz i (by omega)

lemma loop_O_length (p : Params) (n : ℕ) (hn : 1 ≤ n) : (loop p n).O.length = n :=
  (loopUpTo_inv p n hn (n - 1) le_rfl).1

lemma loop_E_length (p : Params) (n : ℕ) (hn : 1 ≤ n) : (loop p n).E.length = n :=
  (loopUpTo_inv p n hn (n - 1) le_rfl).2.1

lemma loop_M_length (p : Params) (n : ℕ) (hn : 1 ≤ n) : (loop p n).M.length = n :=
  (loopUpTo_inv p n hn (n - 1) le_rfl).2.2.1

lemma loop_O_getD (p : Params) (n : ℕ) (hn : 1 ≤ n) (i : ℕ) (hi : i < n) :
    (loop p n).O.getD i 0 = (OE p i).1 :=
  (loopUpTo_inv p n hn (n - 1) le_rfl).2.2.2.1 i (by omega)

lemma loop_E_getD (p : Params) (n : ℕ) (hn : 1 ≤ n) (i : ℕ) (hi : i < n) :
    (loop p n).E.getD i 0 = (OE p i).2 :=
  (loopUpTo_inv p n hn (n - 1) le_rfl).2.2.2.2.1 i (by omega)

lemma loop_M_getD (p : Params) (n : ℕ) (hn : 1 ≤ n) (i : ℕ) (hi : i < n - 1) :
    (loop p n).M.getD i 0 = p.G - (OE p i).1 :=
  (loopUpTo_inv p n hn (n - 1) le_rfl).2.2.2.2.2.1 i hi

/-- The loop leaves the last entry of `M` at its zero-initialised value. -/
lemma loop_M_last (p : Params) (n : ℕ) (hn : 1 ≤ n) :
    (loop p n).M.getD (n - 1) 0 = 0 :=
  (loopUpTo_inv p n hn (n - 1) le_rfl).2.2.2.2.2.2 (n - 1) le_rfl

lemma final_O (p : Params) (n : ℕ) : (final p n).O = (loop p n).O := rfl

lemma final_E (p : Params) (n : ℕ) : (final p n).E = (loop p n).E := rfl

lemma final_M (p : Params) (n : ℕ) :
    (final p n).M = (loop p n).M.set (n - 1) (p.G - (loop p n).O.getD (n - 1) 0) := rfl

lemma final_O_getD (p : Params) (n : ℕ) (hn : 1 ≤ n) (i : ℕ) (hi : i < n) :
    (final p n).O.getD i 0 = (OE p i).1 := loop_O_getD p n hn i hi

lemma final_E_getD (p : Params) (n : ℕ) (hn : 1 ≤ n) (i : ℕ) (hi : i < n) :
    (final p n).E.getD i 0 = (OE p i).2 := loop_E_getD p n hn i hi

lemma final_M_getD (p : Params) (n : ℕ) (hn : 1 ≤ n) (i : ℕ) (hi : i < n) :
    (final p n).M.getD i 0 = p.G - (OE p i).1 := by
  rw [final_M]
  rcases Nat.lt_or_ge i (n - 1) with h | h
  · rw [getD_set_ne _ _ _ _ (by omega : n - 1 ≠ i)]
    exact loop_M_getD p n hn i h
  · have hieq : i = n - 1 := by omega
    subst hieq
    rw [getD_set_self _ _ _ (by rw [loop_M_length p n hn]; omega)]
    rw [loop_O_getD p n hn (n - 1) (by omega)]

lemma final_O_length (p : Params) (n : ℕ) (hn : 1 ≤ n) : (final p n).O.length = n :=
  loop_O_length p n hn

lemma final_E_length (p : Params) (n : ℕ) (hn : 1 ≤ n) : (final p n).E.length = n :=
  loop_E_length p n hn

lemma final_M_length (p : Params) (n : ℕ) (hn : 1 ≤ n) : (final p n).M.length = n := by
  rw [final_M, List.length_set]
  exact loop_M_length p n hn

lemma steps_eq : steps = 20000 := by
  have h : T / params0.dt = (20000 : ℝ) := by norm_num [T, params0]
  rw [steps, h]
  norm_num
  rfl

lemma step_fst (p : Params) (oe : ℝ × ℝ) :
    (step p oe).1 = oe.1 + (p.alpha * oe.2 * f (p.G - oe.1) - p.delta * oe.1) * p.dt := rfl

lemma step_snd (p : Params) (oe : ℝ × ℝ) :
    (step p oe).2 =
      oe.2 + (p.r1 * g (p.G - oe.1) - p.r2 * oe.2 * |f (p.G - oe.1)|) * p.dt := rfl

lemma f_zero : f 0 = 0 := by simp [f]

lemma g_zero : g 0 = 1 := by norm_num [g]

lemma g_pos (m : ℝ) : 0 < g m := by
  rw [g]
  positivity

lemma g_le_one (m : ℝ) : g m ≤ 1 := by
  rw [g, div_le_one (by positivity)]
  nlinarith [sq_nonneg m]

lemma abs_f (m : ℝ) : |f m| = |m| * Real.exp (-m ^ 2) := by
  rw [f, abs_mul, abs_of_pos (Real.exp_pos _)]

lemma f_abs_le_half (m : ℝ) : |f m| ≤ 1 / 2 := by
  have hv : m ^ 2 + 1 ≤ Real.exp (m ^ 2) := by
    have h := Real.add_one_le_exp (m ^ 2)
    linarith
  have huv : Real.exp (-m ^ 2) * Real.exp (m ^ 2) = 1 := by
    rw [← Real.exp_add]
    simp
  have hu : 0 < Real.exp (-m ^ 2) := Real.exp_pos _
  have h2 : 2 * |m| ≤ m ^ 2 + 1 := by nlinarith [sq_nonneg (|m| - 1), sq_abs m]
  have h3 : 2 * |m| * Real.exp (-m ^ 2) ≤ 1 := by
    calc 2 * |m| * Real.exp (-m ^ 2)
        ≤ (m ^ 2 + 1) * Real.exp (-m ^ 2) := mul_le_mul_of_nonneg_right h2 hu.le
      _ ≤ Real.exp (m ^ 2) * Real.exp (-m ^ 2) := mul_le_mul_of_nonneg_right hv hu.le
      _ = 1 := by rw [mul_comm]; exact huv
  rw [abs_f]
  linarith

lemma g_eq_one_iff (m : ℝ) : g m = 1 ↔ m = 0 := by
  rw [g]
  constructor
  · intro h
    rw [div_eq_one_iff_eq (by positivity)] at h
    have hm : m ^ 2 = 0 := by linarith [h]
    exact pow_eq_zero_iff (by norm_num : (2 : ℕ) ≠ 0) |>.mp hm
  · intro h
    subst h
    norm_num

lemma exp_neg64_bounds :
    (0.52728 : ℝ) < Real.exp (-0.64) ∧ Real.exp (-0.64) < 0.52730 := by
  have hx : (-0.64 : ℝ) = -(16 / 25) := by norm_num
  have habs : |(-(16 / 25) : ℝ)| = 16 / 25 := by
    rw [abs_of_nonpos (by norm_num : (-(16 / 25) : ℝ) ≤ 0)]
    norm_num
  have h := Real.exp_bound (x := (-(16 / 25) : ℝ)) (by rw [habs]; norm_num) (n := 8)
    (by norm_num)
  rw [habs] at h
  rw [Finset.sum_range_succ, Finset.sum_range_succ, Finset.sum_range_succ,
    Finset.sum_range_succ, Finset.sum_range_succ, Finset.sum_range_succ,
    Finset.sum_range_succ, Finset.sum_range_succ, Finset.sum_range_zero] at h
  norm_num [Nat.factorial] at h
  have h2 := abs_le.mp h
  rw [hx]
  constructor <;> linarith [h2.1, h2.2]

lemma f_08 : f 0.8 = 0.8 * Real.exp (-0.64) := by
  rw [f]
  norm_num

lemma f_08_bounds : (0.421824 : ℝ) < f 0.8 ∧ f 0.8 < 0.42184 := by
  obtain ⟨h1, h2⟩ := exp_neg64_bounds
  rw [f_08]
  constructor <;> linarith

lemma g_08 : g 0.8 = 25 / 41 := by
  rw [g]
  norm_num

/-- With `alpha = 0` the `O`-component of the recurrence is a geometric
decay: `O[i] = O0 * (1 - delta*dt)^i`. -/
lemma OE_O_decay (q : Params) (hq : q.alpha = 0) (i : ℕ) :
    (OE q i).1 = q.O0 * (1 - q.delta * q.dt) ^ i := by
  induction i with
  | zero =>
    rw [OE_zero]
    simp
  | succ i ih =>
    rw [OE_succ, step_fst, ih, hq, pow_succ]
    ring

lemma OE_E_pos (i : ℕ) : 0 < (OE params0 i).2 := by
  induction i with
  | zero =>
    rw [OE_zero]
    norm_num [params0]
  | succ i ih =>
    rw [OE_succ, step_snd]
    have hg := g_pos (params0.G - (OE params0 i).1)
    have hf := f_abs_le_half (params0.G - (OE params0 i).1)
    have hf0 := abs_nonneg (f (params0.G - (OE params0 i).1))
    have hmul : (OE params0 i).2 * |f (params0.G - (OE params0 i).1)|
        ≤ (OE params0 i).2 * (1 / 2) := mul_le_mul_of_nonneg_left hf ih.le
    simp only [params0] at *
    nlinarith [ih]

/-- Claim C1: starting from `O[0] = 0.2` and `E[0] = 0.5`, each loop
iteration computes `M[i] = G - O[i]`,
`O[i+1] = O[i] + (alpha*E[i]*f(M[i]) - delta*O[i])*dt` and
`E[i+1] = E[i] + (r1*g(M[i]) - r2*E[i]*|f(M[i])|)*dt`, where
`f(m) = m*exp(-m^2)` and `g(m) = 1/(1+m^2)`. -/
theorem spec_c1 : ∀ i : ℕ, i + 1 < steps →
    (final params0 steps).O.getD 0 0 = 0.2 ∧
    (final params0 steps).E.getD 0 0 = 0.5 ∧
    (∀ m : ℝ, f m = m * Real.exp (-m ^ 2)) ∧
    (∀ m : ℝ, g m = 1 / (1 + m ^ 2)) ∧
    (final params0 steps).M.getD i 0 = params0.G - (final params0 steps).O.getD i 0 ∧
    (final params0 steps).O.getD (i + 1) 0 =
      (final params0 steps).O.getD i 0 +
        (params0.alpha * (final params0 steps).E.getD i 0 *
            f ((final params0 steps).M.getD i 0) -
          params0.delta * (final params0 steps).O.getD i 0) * params0.dt ∧
    (final params0 steps).E.getD (i + 1) 0 =
      (final params0 steps).E.getD i 0 +
        (params0.r1 * g ((final params0 steps).M.getD i 0) -
          params0.r2 * (final params0 steps).E.getD i 0 *
            |f ((final params0 steps).M.getD i 0)|) * params0.dt := by
  intro i hi
  have hst : 1 ≤ steps := by rw [steps_eq]; omega
  have hi1 : i < steps := by omega
  have hO0 := final_O_getD params0 steps hst 0 (by omega)
  have hE0 := final_E_getD params0 steps hst 0 (by omega)
  have hOi := final_O_getD params0 steps hst i hi1
  have hEi := final_E_getD params0 steps hst i hi1
  have hMi := final_M_getD params0 steps hst i hi1
  have hOs := final_O_getD params0 steps hst (i + 1) hi
  have hEs := final_E_getD params0 steps hst (i + 1) hi
  refine ⟨?_, ?_, fun m => rfl, fun m => by rw [g]; norm_num, ?_, ?_, ?_⟩
  · rw [hO0]
    simp [OE_zero, params0]
  · rw [hE0]
    simp [OE_zero, params0]
  · rw [hMi, hOi]
  · rw [hOs, hOi, hEi, hMi, OE_succ, step_fst]
  · rw [hEs, hEi, hMi, OE_succ, step_snd]

theorem spec_c1_witness :
    (final params0 steps).O.getD 0 0 = 0.2 ∧
    (final params0 steps).E.getD 0 0 = 0.5 ∧
    (∀ m : ℝ, f m = m * Real.exp (-m ^ 2)) ∧
    (∀ m : ℝ, g m = 1 / (1 + m ^ 2)) ∧
    (final params0 steps).M.getD 0 0 = params0.G - (final params0 steps).O.getD 0 0 ∧
    (final params0 steps).O.getD (0 + 1) 0 =
      (final params0 steps).O.getD 0 0 +
        (params0.alpha * (final params0 steps).E.getD 0 0 *
            f ((final params0 steps).M.getD 0 0) -
          params0.delta * (final params0 steps).O.getD 0 0) * params0.dt ∧
    (final params0 steps).E.getD (0 + 1) 0 =
      (final params0 steps).E.getD 0 0 +
        (params0.r1 * g ((final params0 steps).M.getD 0 0) -
          params0.r2 * (final params0 steps).E.getD 0 0 *
            |f ((final params0 steps).M.getD 0 0)|) * params0.dt :=
  spec_c1 0 (by rw [steps_eq]; decide)

/-- Claim C2: after the run, `M[i] = G - O[i]` for every `i < steps`; the
loop itself only writes `M` below index `steps - 1` (the last entry is
still its initial zero when the loop ends), and the final entry is set
once after the loop as `M[steps-1] = G - O[steps-1]`. -/
theorem spec_c2 :
    (∀ i, i < steps → (final params0 steps).M.getD i 0
        = params0.G - (final params0 steps).O.getD i 0) ∧
    (∀ i, i < steps - 1 → (loop params0 steps).M.getD i 0
        = params0.G - (loop params0 steps).O.getD i 0) ∧
    (loop params0 steps).M.getD (steps - 1) 0 = 0 ∧
    (final params0 steps).M = (loop params0 steps).M.set (steps - 1)
      (params0.G - (loop params0 steps).O.getD (steps - 1) 0) := by
  have hst : 1 ≤ steps := by rw [steps_eq]; omega
  refine ⟨?_, ?_, loop_M_last params0 steps hst, final_M params0 steps⟩
  · intro i hi
    rw [final_M_getD params0 steps hst i hi, final_O_getD params0 steps hst i hi]
  · intro i hi
    rw [loop_M_getD params0 steps hst i hi, loop_O_getD params0 steps hst i (by omega)]

theorem spec_c2_witness :
    (final params0 steps).M.getD 0 0 = params0.G - (final params0 steps).O.getD 0 0 :=
  spec_c2.1 0 (by rw [steps_eq]; decide)

/-- Claim C3: the three arrays all have length `steps = int(T/dt)`, and
with `T = 200`, `dt = 0.01` this is exactly `20000`. -/
theorem spec_c3 :
    (final params0 steps).O.length = steps ∧
    (final params0 steps).E.length = steps ∧
    (final params0 steps).M.length = steps ∧
    steps = Int.toNat ⌊T / params0.dt⌋ ∧
    steps = 20000 := by
  have hst : 1 ≤ steps := by rw [steps_eq]; omega
  exact ⟨final_O_length params0 steps hst, final_E_length params0 steps hst,
    final_M_length params0 steps hst, rfl, steps_eq⟩

/-- Claim C4 (amended): at `M = 0` exactly, `f(0) = 0` and `g(0) = 1`, so
`dO = -delta*O[i]`; but `dE = r1` there (the depletion term
`r2*E[i]*|f(0)|` vanishes), not `r1 - r2*E[i]` as the claim stated. -/
theorem spec_c4 : ∀ (p : Params) (o e : ℝ),
    f 0 = 0 ∧ g 0 = 1 ∧ dO p 0 o e = -p.delta * o ∧ dE p 0 e = p.r1 := by
  intro p o e
  refine ⟨f_zero, g_zero, ?_, ?_⟩
  · rw [dO, f_zero]
    ring
  · rw [dE, f_zero, g_zero, abs_zero]
    ring

/-- Claim C4 counterexample: with the script's parameters, `M = 0` and
`E[i] = 1`, the code computes `dE = r1 = 1`, whereas the claim's formula
`r1 - r2*E[i]` gives `-0.2`. -/
theorem spec_c4_counterexample :
    dE params0 0 1 = 1 ∧ params0.r1 - params0.r2 * 1 = -0.2 ∧
      dE params0 0 1 ≠ params0.r1 - params0.r2 * 1 := by
  have h1 : dE params0 0 1 = 1 := by
    rw [dE, f_zero, g_zero, abs_zero]
    norm_num [params0]
  have h2 : params0.r1 - params0.r2 * 1 = -0.2 := by norm_num [params0]
  refine ⟨h1, h2, ?_⟩
  rw [h1, h2]
  norm_num

lemma f_08_pos : 0 < f 0.8 := lt_trans (by norm_num) f_08_bounds.1

lemma dO_first : dO params0 0.8 0.2 0.5 = f 0.8 - 0.1 := by
  rw [dO]
  simp only [params0]
  ring

lemma dE_first : dE params0 0.8 0.5 = 25 / 41 - 0.6 * f 0.8 := by
  rw [dE, g_08, abs_of_pos f_08_pos]
  simp only [params0]
  ring

lemma OE1_O : (OE params0 1).1 = 0.2 + (f 0.8 - 0.1) * 0.01 := by
  rw [OE_succ, step_fst, OE_zero]
  simp only [params0]
  norm_num

lemma OE1_E : (OE params0 1).2 = 0.5 + (25 / 41 - 0.6 * f 0.8) * 0.01 := by
  rw [OE_succ, step_snd, OE_zero]
  simp only [params0]
  have harg : (1.0 : ℝ) - 0.2 = 0.8 := by norm_num
  rw [harg, g_08, abs_of_pos f_08_pos]
  ring

/-- Claim C5 (amended): with the script's parameters the first step gives
`M[0] = 0.8`, `O[1] ≈ 0.2032` and `E[1] ≈ 0.5036`, via `g(0.8) ≈ 0.6098`
and `dE ≈ 0.3565`, but `f(0.8) ≈ 0.4218` and `dO ≈ 0.3218` (not `0.4189`
and `0.3189`); all approximations within `10⁻³`. -/
theorem spec_c5 :
    (final params0 steps).M.getD 0 0 = 0.8 ∧
    |f 0.8 - 0.4218| ≤ 1 / 1000 ∧
    |g 0.8 - 0.6098| ≤ 1 / 1000 ∧
    |dO params0 0.8 0.2 0.5 - 0.3218| ≤ 1 / 1000 ∧
    |dE params0 0.8 0.5 - 0.3565| ≤ 1 / 1000 ∧
    |(final params0 steps).O.getD 1 0 - 0.2032| ≤ 1 / 1000 ∧
    |(final params0 steps).E.getD 1 0 - 0.5036| ≤ 1 / 1000 := by
  have hst : 1 ≤ steps := by rw [steps_eq]; omega
  obtain ⟨hf1, hf2⟩ := f_08_bounds
  refine ⟨?_, ?_, ?_, ?_, ?_, ?_, ?_⟩
  · rw [final_M_getD params0 steps hst 0 (by rw [steps_eq]; omega), OE_zero]
    norm_num [params0]
  · rw [abs_le]
    constructor <;> linarith
  · rw [g_08, abs_le]
    constructor <;> norm_num
  · rw [dO_first, abs_le]
    constructor <;> linarith
  · rw [dE_first, abs_le]
    constructor <;> linarith
  · rw [final_O_getD params0 steps hst 1 (by rw [steps_eq]; omega), OE1_O, abs_le]
    constructor <;> linarith
  · rw [final_E_getD params0 steps hst 1 (by rw [steps_eq]; omega), OE1_E, abs_le]
    constructor <;> linarith

/-- Claim C5 counterexample: `f(0.8)` is `0.4218...`, not `≈ 0.4189`, and
the first-step `dO` is `0.3218...`, not `≈ 0.3189`; both are off by about
`2.9·10⁻³`, far beyond a `10⁻³` tolerance. -/
theorem spec_c5_counterexample :
    1 / 1000 < |f 0.8 - 0.4189| ∧ 1 / 1000 < |dO params0 0.8 0.2 0.5 - 0.3189| := by
  obtain ⟨hf1, hf2⟩ := f_08_bounds
  constructor
  · rw [abs_of_pos (by linarith)]
    linarith
  · rw [dO_first, abs_of_pos (by linarith)]
    linarith

/-- Claim C6: the simulation is a pure function of its parameters and
initial conditions; identical inputs give identical `O`, `E`, `M` arrays. -/
theorem spec_c6 : ∀ (p q : Params) (n m : ℕ), p = q → n = m →
    (final p n).O = (final q m).O ∧ (final p n).E = (final q m).E ∧
      (final p n).M = (final q m).M ∧ OE p = OE q := by
  intro p q n m hpq hnm
  subst hpq
  subst hnm
  exact ⟨rfl, rfl, rfl, rfl⟩

theorem spec_c6_witness :
    (final params0 steps).O = (final params0 steps).O ∧
    (final params0 steps).E = (final params0 steps).E ∧
    (final params0 steps).M = (final params0 steps).M ∧
    OE params0 = OE params0 :=
  spec_c6 params0 params0 steps steps rfl rfl

/-- Claim C7: with `alpha = 0` and the other parameters as in the script,
each step multiplies `O` by the constant `1 - delta*dt`, so
`O[i] = 0.2*(1 - 0.005)^i` is positive, strictly decreasing, independent
of `E`, and tends to `0`. -/
theorem spec_c7 :
    p7.alpha = 0 ∧
    (∀ i, i < steps → (final p7 steps).O.getD i 0 = 0.2 * (1 - 0.5 * 0.01) ^ i) ∧
    (∀ i, (OE p7 (i + 1)).1 = (1 - 0.5 * 0.01) * (OE p7 i).1) ∧
    (∀ i, 0 < (OE p7 i).1) ∧
    (∀ i, (OE p7 (i + 1)).1 < (OE p7 i).1) ∧
    (∀ e : ℝ, ∀ i, (OE { p7 with E0 := e } i).1 = (OE p7 i).1) ∧
    Filter.Tendsto (fun i => (OE p7 i).1) Filter.atTop (nhds 0) := by
  have hd : ∀ i, (OE p7 i).1 = 0.2 * (1 - 0.5 * 0.01) ^ i := by
    intro i
    rw [OE_O_decay p7 rfl]
    norm_num [p7, params0]
  have hst : 1 ≤ steps := by rw [steps_eq]; omega
  refine ⟨rfl, ?_, ?_, ?_, ?_, ?_, ?_⟩
  · intro i hi
    rw [final_O_getD p7 steps hst i hi, hd i]
  · intro i
    rw [hd i, hd (i + 1), pow_succ]
    ring
  · intro i
    rw [hd i]
    positivity
  · intro i
    rw [hd i, hd (i + 1), pow_succ]
    have hp := pow_pos (by norm_num : (0 : ℝ) < 1 - 0.5 * 0.01) i
    nlinarith [hp]
  · intro e i
    rw [OE_O_decay _ rfl, OE_O_decay p7 rfl]
  · have h0 : Filter.Tendsto (fun i : ℕ => (1 - 0.5 * 0.01 : ℝ) ^ i)
        Filter.atTop (nhds 0) :=
      tendsto_pow_atTop_nhds_zero_of_lt_one (by norm_num) (by norm_num)
    have h1 := h0.const_mul (0.2 : ℝ)
    rw [mul_zero] at h1
    exact h1.congr fun i => (hd i).symm

theorem spec_c7_witness :
    (final p7 steps).O.getD 0 0 = 0.2 * (1 - 0.5 * 0.01) ^ 0 :=
  spec_c7.2.1 0 (by rw [steps_eq]; decide)

/-- Claim C8: `g(m) = 1/(1+m^2)` has a never-zero denominator `1+m^2 ≥ 1`,
is strictly positive, at most `1`, and equals `1` exactly at `m = 0`;
`f(m) = m*exp(-m^2)` is bounded (by `1/2`) with `f(0) = 0`. -/
theorem spec_c8 : ∀ m : ℝ,
    (1 : ℝ) ≤ 1 + m ^ 2 ∧ 1 + m ^ 2 ≠ 0 ∧ 0 < g m ∧ g m ≤ 1 ∧
      (g m = 1 ↔ m = 0) ∧ f 0 = 0 ∧ |f m| ≤ 1 / 2 := by
  intro m
  exact ⟨by nlinarith [sq_nonneg m], by positivity, g_pos m, g_le_one m,
    g_eq_one_iff m, f_zero, f_abs_le_half m⟩

/-- Claim C9: the array program is equivalent to the two-variable
recurrence `OE`: the stored `O` and `E` values are exactly the recurrence
states, `M` is the derived value `G - O[i]`, and the next state is a pure
function (`step`) of the current `(O[i], E[i])` alone. -/
theorem spec_c9 : ∀ i, i < steps →
    (final params0 steps).O.getD i 0 = (OE params0 i).1 ∧
    (final params0 steps).E.getD i 0 = (OE params0 i).2 ∧
    (final params0 steps).M.getD i 0 = params0.G - (OE params0 i).1 ∧
    OE params0 (i + 1) = step params0 (OE params0 i) := by
  intro i hi
  have hst : 1 ≤ steps := by rw [steps_eq]; omega
  exact ⟨final_O_getD params0 steps hst i hi, final_E_getD params0 steps hst i hi,
    final_M_getD params0 steps hst i hi, OE_succ params0 i⟩

theorem spec_c9_witness :
    (final params0 steps).O.getD 0 0 = (OE params0 0).1 ∧
    (final params0 steps).E.getD 0 0 = (OE params0 0).2 ∧
    (final params0 steps).M.getD 0 0 = params0.G - (OE params0 0).1 ∧
    OE params0 (0 + 1) = step params0 (OE params0 0) :=
  spec_c9 0 (by rw [steps_eq]; decide)

/-- Claim C10: `|f| < 1` everywhere, each step rewrites to
`E[i+1] = E[i]*(1 - r2*dt*|f(M[i])|) + r1*g(M[i])*dt`, and with the
script's parameters every stored `E[i]` is strictly positive. -/
theorem spec_c10 :
    (∀ m : ℝ, |f m| < 1) ∧
    (∀ e m : ℝ, e + dE params0 m e * params0.dt
        = e * (1 - params0.r2 * params0.dt * |f m|)
          + params0.r1 * g m * params0.dt) ∧
    (∀ i, i < steps → 0 < (final params0 steps).E.getD i 0) := by
  have hst : 1 ≤ steps := by rw [steps_eq]; omega
  refine ⟨?_, ?_, ?_⟩
  · intro m
    have h := f_abs_le_half m
    linarith
  · intro e m
    rw [dE]
    ring
  · intro i hi
    rw [final_E_getD params0 steps hst i hi]
    exact OE_E_pos i

theorem spec_c10_witness : 0 < (final params0 steps).E.getD 0 0 :=
  spec_c10.2.2 0 (by rw [steps_eq]; decide)

end

end Work
